import Mathlib

/-!
Verification of the finance-data ingestion scripts (`main.py`).

The development shallowly embeds the program:
* a CSV file is a list of rows, a row a list of string fields
  (the `csv` reader/writer round-trip is the identity on field lists);
* `validate_and_fix_csv` is split into a pure core over the parsed rows
  and a wrapper over an explicit file state, with the `try/except`
  modelled by an `Except`-valued body and a total catching wrapper;
* `update_qld2` (the incremental merge engine for the composite symbol)
  is a function of today's date, the two fetch results and the existing
  on-disk series, returning the new on-disk series, the decision taken
  and the list of fetch calls it issued;
* the per-symbol pipeline of `main` and its run-level loop are embedded
  as `processPlainSymbol` and `mainLoop`.

Dates are day ordinals (`Nat`); the script compares dates as ISO-formatted
strings, whose lexicographic order agrees with chronological order.
Prices are rationals; the script's price arithmetic is a single exact
multiplication by 2.
-/

namespace Finance

/-- A parsed CSV row: the list of its fields. -/
abbrev Row := List String

/-- The canonical header `Date,Open,High,Low,Close,Adj Close,Volume`. -/
def expected_header : Row := ["Date", "Open", "High", "Low", "Close", "Adj Close", "Volume"]

/-- ASCII whitespace, as stripped by Python's `str.strip()`. -/
def isSpaceChar (c : Char) : Bool :=
  c == ' ' || c == '\t' || c == '\n' || c == '\r' || c == '\x0b' || c == '\x0c'

/-- Drop leading whitespace characters. -/
def dropLeadingSpaces : List Char → List Char
  | [] => []
  | c :: cs => if isSpaceChar c then dropLeadingSpaces cs else c :: cs

/-- Python's `str.strip()`: remove whitespace from both ends. -/
def stripStr (s : String) : String :=
  ⟨(dropLeadingSpaces (dropLeadingSpaces s.toList).reverse).reverse⟩

/-- `normalize_header` from `main.py`: strip whitespace from each column. -/
def normalize_header (header_row : Row) : Row := header_row.map (fun col => stripStr col)

/-- `date_pattern.match(s)` for `re.compile(r'\d{2}/\d{2}/\d{4}')`:
Python's `re.match` anchors at the start only, so this is a prefix match. -/
def datePatternMatch (s : String) : Bool :=
  match s.toList with
  | a1 :: a2 :: b1 :: a3 :: a4 :: b2 :: a5 :: a6 :: a7 :: a8 :: _ =>
      a1.isDigit && a2.isDigit && (b1 == '/') && a3.isDigit && a4.isDigit &&
      (b2 == '/') && a5.isDigit && a6.isDigit && a7.isDigit && a8.isDigit
  | _ => false

/-- The per-row validity test of `validate_and_fix_csv`:
`date_pattern.match(row[0]) and len(row) == len(expected_header)`.
An empty row never reaches this test in the source (it is skipped first),
and here it evaluates to `false`. -/
def isValidDataRow (row : Row) : Bool :=
  match row with
  | [] => false
  | f :: rest => datePatternMatch f && ((f :: rest).length == expected_header.length)

/-- The header search of `validate_and_fix_csv`: index of the first row whose
normalization equals the expected header. -/
def findHeaderIdx : List Row → Option Nat
  | [] => none
  | row :: rest =>
    if normalize_header row == expected_header then some 0
    else (findHeaderIdx rest).map (fun i => i + 1)

/-- The data-row scan of `validate_and_fix_csv`: empty rows are skipped
(`if not row: continue`), valid rows are kept, and the scan stops at the
first non-empty invalid row (`else: break`). -/
def scanRows : List Row → List Row
  | [] => []
  | row :: rest =>
    if row.isEmpty then scanRows rest
    else if isValidDataRow row then row :: scanRows rest
    else []

/-- The pure core of `validate_and_fix_csv` on the parsed rows:
`none` means the function returns `False` without rewriting the file,
`some out` means it rewrites the file to exactly the rows `out`
(`valid_data` of the source is `header :: scanRows rest`). -/
def validate_and_fix_csv_pure (lines : List Row) : Option (List Row) :=
  match findHeaderIdx lines with
  | none => none
  | some i =>
    match lines.drop i with
    | [] => none
    | header :: rest =>
      if (header :: rest).length < 2 then none
      else if (header :: scanRows rest).length < 2 then none
      else some (header :: scanRows rest)

/-- The observable state of the CSV file on disk. `absent`: `open` raises
`FileNotFoundError`; `unreadable`: the bytes fail to decode, `open`/`read`
raises; `content lines`: the file parses to `lines`. -/
inductive FileState where
  | absent
  | unreadable
  | content (lines : List Row)
  deriving DecidableEq, Repr

/-- Python exceptions that the scripts can raise. -/
inductive PyError where
  | ioError
  | keyError
  | valueError
  deriving DecidableEq, Repr

/-- The body of the `try:` block in `validate_and_fix_csv`: reading a missing
or undecodable file raises; otherwise the pure core decides between a
no-mutation failure and a rewrite. -/
def validate_and_fix_body (fs : FileState) : Except PyError (Bool × FileState) :=
  match fs with
  | .absent => .error .ioError
  | .unreadable => .error .ioError
  | .content lines =>
    match validate_and_fix_csv_pure lines with
    | none => .ok (false, .content lines)
    | some out => .ok (true, .content out)

/-- `validate_and_fix_csv` from `main.py`: the whole body runs inside
`try/except Exception`, which turns any raised error into `return False`. -/
def validate_and_fix_csv (fs : FileState) : Bool × FileState :=
  match validate_and_fix_body fs with
  | .ok r => r
  | .error _ => (false, fs)

/-- A canonical daily price row of the on-disk series. The date is a day
ordinal; within-run date comparisons in the script are on ISO-formatted
strings, whose order is chronological order. The source's `open` column is
`open_` because `open` is a Lean keyword. -/
structure PriceRow where
  date : Nat
  open_ : ℚ
  high : ℚ
  low : ℚ
  close : ℚ
  adjClose : ℚ
  volume : ℚ
  deriving DecidableEq, Repr

/-- A `yf.download` result after the MultiIndex columns are flattened:
its rows, plus whether an `Adj Close` column is present. -/
structure RawTable where
  hasAdjClose : Bool
  rows : List PriceRow
  deriving DecidableEq, Repr

/-- Column normalization applied to a fetched row: when the table has no
`Adj Close` column the script copies `Close` into it
(`qld_new['Adj Close'] = qld_new['Close']`); the other fields pass through
unchanged by the column reordering. -/
def normalizeRow (hasAdj : Bool) (r : PriceRow) : PriceRow :=
  if hasAdj then r else { r with adjClose := r.close }

/-- Normalization of a whole fetched table (`update_qld2` lines 126-131 /
`main` lines 175-183). -/
def normalizeTable (t : RawTable) : List PriceRow :=
  t.rows.map (normalizeRow t.hasAdjClose)

/-- The synthetic-prefix scaling of `update_qld2`:
`for c in ['Open','High','Low','Close','Adj Close']: qqq[c] = qqq[c] * 2`.
Volume and date are untouched. -/
def scaleRow (r : PriceRow) : PriceRow :=
  { r with open_ := r.open_ * 2, high := r.high * 2, low := r.low * 2,
           close := r.close * 2, adjClose := r.adjClose * 2 }

/-- The reconciliation decision `update_qld2` reaches for the composite
symbol's series. -/
inductive Decision where
  | upToDate
  | noNewRows
  | appended (n : Nat)
  deriving DecidableEq, Repr

/-- One fetch call issued by `update_qld2`: the proxy-history download
(`yf.download('QQQ', start='2000-01-01', end=inception)`) or a dated
download of the real instrument (`yf.download('QLD', start, end)`). -/
inductive FetchCall where
  | proxyHistory
  | gap (startDate endDate : Nat)
  deriving DecidableEq, Repr

/-- `update_qld2` from `main.py`, as a function of today's date, the
inception constant, the proxy fetch result, the dated fetch collaborator
and the existing on-disk series (`none` = the file does not exist,
`some []` = the file exists with a header and no data rows).

Returns the final on-disk series, the decision, and the fetch calls issued.
Errors: an existing file with no data rows makes `existing.index.max()`
return `NaT`, whose `strftime` raises; a proxy table without an
`Adj Close` column makes `qqq['Adj Close']` raise `KeyError`. The branch
for an existing file writes nothing when it returns; the absent-file
branch writes the scaled proxy series unconditionally (even when the proxy
fetch is empty) before fetching from inception. -/
def update_qld2 (today inception : Nat) (proxyTable : RawTable)
    (fetchGap : Nat → Nat → RawTable) (existing : Option (List PriceRow)) :
    Except PyError (Option (List PriceRow) × Decision × List FetchCall) :=
  match existing with
  | some rows =>
    match (rows.map (fun r => r.date)).max? with
    | none => .error .valueError
    | some last_date =>
      if today ≤ last_date then
        .ok (some rows, .upToDate, [])
      else
        let start_new := last_date + 1
        let qld_new := fetchGap start_new today
        if qld_new.rows.isEmpty then
          .ok (some rows, .noNewRows, [.gap start_new today])
        else
          let norm := normalizeTable qld_new
          .ok (some (rows ++ norm), .appended norm.length, [.gap start_new today])
  | none =>
    if proxyTable.hasAdjClose = false then .error .keyError
    else
      let predicted := proxyTable.rows.map scaleRow
      let qld_new := fetchGap inception today
      if qld_new.rows.isEmpty then
        .ok (some predicted, .noNewRows, [.proxyHistory, .gap inception today])
      else
        let norm := normalizeTable qld_new
        .ok (some (predicted ++ norm), .appended norm.length, [.proxyHistory, .gap inception today])

/-- Python's `str.lower()` on ASCII letters. -/
def lowerChar (c : Char) : Char :=
  if 'A' ≤ c ∧ c ≤ 'Z' then Char.ofNat (c.toNat + 32) else c

/-- Python's `str.lower()`. -/
def lowerStr (s : String) : String := ⟨s.toList.map lowerChar⟩

/-- Outcome of the remote existence probe (`requests.get` on the contents
API): 200 with a sha, 404, or anything else. -/
inductive GetStatus where
  | okSha
  | notFound
  | otherStatus
  deriving DecidableEq, Repr

/-- Per-symbol outcome of the plain-symbol pipeline in `main`. -/
inductive Outcome where
  | noData
  | validationFailed
  | httpSkip
  | publishedOk
  | publishFailed
  deriving DecidableEq, Repr

/-- Result of processing one plain symbol: the local file's final state,
how many publish (`PUT`) calls were attempted, and the outcome. -/
structure PlainResult where
  file : FileState
  publishAttempts : Nat
  outcome : Outcome
  deriving DecidableEq, Repr

/-- The plain-symbol body of `main`'s loop (lines 168-227): fetch, bail out
on an empty result, write the normalized rows under the canonical header,
run `validate_and_fix_csv` and skip the upload when it fails, probe the
remote object, and attempt at most one publish. `prior` is the symbol's
on-disk file before this run; `dataRows` are the fetched rows already
serialized to CSV fields. -/
def processPlainSymbol (prior : FileState) (dataRows : List Row)
    (getStatus : GetStatus) (putOk : Bool) : PlainResult :=
  if dataRows.isEmpty then
    ⟨prior, 0, .noData⟩
  else
    let written : FileState := .content (expected_header :: dataRows)
    let v := validate_and_fix_csv written
    if v.1 = false then
      ⟨v.2, 0, .validationFailed⟩
    else
      match getStatus with
      | .otherStatus => ⟨v.2, 0, .httpSkip⟩
      | _ => ⟨v.2, 1, if putOk then .publishedOk else .publishFailed⟩

/-- The run-level loop of `main` (lines 162-230) over the symbol list.
`step s` abstracts the processing of symbol `s` (it may raise). A symbol
whose lowercase form is `qld2` is handled by `update_qld2()` BEFORE the
`try:` block, so an error raised there propagates and aborts the loop;
every other symbol's body runs inside `try/except Exception`, so its
errors are caught and the loop continues.

Returns the list of symbols whose processing was started, and the symbol
at which the run aborted, if any. -/
def mainLoop (step : String → Except PyError Unit) : List String → List String × Option String
  | [] => ([], none)
  | s :: rest =>
    if lowerStr s == "qld2" then
      match step s with
      | .error _ => ([s], some s)
      | .ok _ =>
        let r := mainLoop step rest
        (s :: r.1, r.2)
    else
      let _ := step s
      let r := mainLoop step rest
      (s :: r.1, r.2)

/-- The data-row scan as the spec sentence states it, for comparison with
`scanRows`: a row is valid iff its first field matches the date pattern and
it has exactly 7 fields, and the scan stops at the FIRST invalid row — with
no special case for empty rows (an empty row has no matching first field
and not 7 fields, hence is invalid and stops the scan). -/
def scanRowsClaimed : List Row → List Row
  | [] => []
  | row :: rest =>
    if isValidDataRow row then row :: scanRowsClaimed rest
    else []

/-- `validate_and_fix_csv_pure` with the scan replaced by the spec-worded
`scanRowsClaimed`: the rewrite the claim predicts. -/
def validate_and_fix_claimed (lines : List Row) : Option (List Row) :=
  match findHeaderIdx lines with
  | none => none
  | some i =>
    match lines.drop i with
    | [] => none
    | header :: rest =>
      if (header :: rest).length < 2 then none
      else if (header :: scanRowsClaimed rest).length < 2 then none
      else some (header :: scanRowsClaimed rest)

/-- A valid data row with the given date field. -/
def sampleRow (d : String) : Row := [d, "1", "2", "3", "4", "5", "6"]

/-- A file with a valid header, one valid row, an interior empty line, and
another valid row. -/
def c2Lines : List Row :=
  [expected_header, sampleRow "01/01/2024", [], sampleRow "02/01/2024"]

/-- A file with a valid header, 5 valid rows, one malformed row, then 3 more
valid-looking rows: the truncation example of the spec. -/
def truncLines : List Row :=
  [expected_header,
   sampleRow "08/01/2024", sampleRow "09/01/2024", sampleRow "10/01/2024",
   sampleRow "11/01/2024", sampleRow "12/01/2024",
   ["garbage", "x"],
   sampleRow "15/01/2024", sampleRow "16/01/2024", sampleRow "17/01/2024"]

/-- A concrete price row with the given date and closing price. -/
def mkRow (d : Nat) (c : ℚ) : PriceRow :=
  { date := d, open_ := c, high := c, low := c, close := c, adjClose := c, volume := 100 }

/-- Whether a step of the run loop completed without raising. -/
def stepOk (e : Except PyError Unit) : Bool :=
  match e with
  | .ok _ => true
  | .error _ => false

/-- A per-symbol behavior where processing the composite symbol raises
(e.g. `update_qld2` hits a network error or an empty-file `NaT`). -/
def c9Step : String → Except PyError Unit :=
  fun s => if s == "qld2" then .error .ioError else .ok ()

/-- A per-symbol behavior where only the plain symbol `AAPL` raises. -/
def c9PlainFailStep : String → Except PyError Unit :=
  fun s => if s == "AAPL" then .error .ioError else .ok ()

/-- The header search succeeds at index 0 when the first row normalizes to the
expected header. -/
theorem findHeaderIdx_cons_of_match {row : Row} (rest : List Row)
    (h : (normalize_header row == expected_header) = true) :
    findHeaderIdx (row :: rest) = some 0 := by
  simp [findHeaderIdx, h]

/-- If the header search returns index `i`, then dropping `i` rows exposes the
matching header at the front. -/
theorem findHeaderIdx_drop : ∀ {lines : List Row} {i : Nat},
    findHeaderIdx lines = some i →
    ∃ hdr rest, lines.drop i = hdr :: rest ∧
      (normalize_header hdr == expected_header) = true := by
  intro lines
  induction lines with
  | nil => intro i h; simp [findHeaderIdx] at h
  | cons a l ih =>
    intro i h
    by_cases ha : (normalize_header a == expected_header) = true
    · simp only [findHeaderIdx, if_pos ha, Option.some.injEq] at h
      subst h
      exact ⟨a, l, by simp, ha⟩
    · simp only [findHeaderIdx, if_neg ha, Option.map_eq_some'] at h
      obtain ⟨j, hj, hji⟩ := h
      obtain ⟨hdr, rest, hdrop, hm⟩ := ih hj
      refine ⟨hdr, rest, ?_, hm⟩
      rw [← hji, List.drop_succ_cons]
      exact hdrop

/-- Unfolding of `validate_and_fix_csv_pure` once the header index is known. -/
theorem pure_eq_of_find (lines : List Row) (i : Nat)
    (hf : findHeaderIdx lines = some i) :
    validate_and_fix_csv_pure lines =
      match lines.drop i with
      | [] => none
      | header :: rest =>
        if (header :: rest).length < 2 then none
        else if (header :: scanRows rest).length < 2 then none
        else some (header :: scanRows rest) := by
  unfold validate_and_fix_csv_pure
  rw [hf]

/-- Every row kept by the scan is non-empty and valid. -/
theorem scanRows_mem : ∀ {rows : List Row} {r : Row}, r ∈ scanRows rows →
    r.isEmpty = false ∧ isValidDataRow r = true := by
  intro rows
  induction rows with
  | nil => intro r hr; simp [scanRows] at hr
  | cons a l ih =>
    intro r hr
    by_cases ha : a.isEmpty = true
    · rw [scanRows, if_pos ha] at hr
      exact ih hr
    · by_cases hv : isValidDataRow a = true
      · rw [scanRows, if_neg ha, if_pos hv] at hr
        rcases List.mem_cons.mp hr with h1 | h2
        · subst h1
          exact ⟨Bool.eq_false_iff.mpr ha, hv⟩
        · exact ih h2
      · rw [scanRows, if_neg ha, if_neg hv] at hr
        simp at hr

/-- The scan keeps a list of non-empty valid rows unchanged. -/
theorem scanRows_all_valid : ∀ {rows : List Row},
    (∀ r ∈ rows, r.isEmpty = false ∧ isValidDataRow r = true) →
    scanRows rows = rows := by
  intro rows
  induction rows with
  | nil => intro _; rfl
  | cons a l ih =>
    intro h
    obtain ⟨hne, hv⟩ := h a (List.mem_cons_self a l)
    rw [scanRows, if_neg (by simp [hne]), if_pos hv,
      ih (fun r hr => h r (List.mem_cons_of_mem a hr))]

/-- `validate_and_fix_csv_pure` on a file whose first row is the header:
it fails iff the scan keeps nothing, and otherwise rewrites to the header
followed by the kept rows. -/
theorem pure_cons (hdr : Row) (rest : List Row)
    (hm : (normalize_header hdr == expected_header) = true) :
    validate_and_fix_csv_pure (hdr :: rest) =
      if scanRows rest = [] then none else some (hdr :: scanRows rest) := by
  unfold validate_and_fix_csv_pure
  rw [findHeaderIdx_cons_of_match rest hm]
  simp only [List.drop_zero]
  cases rest with
  | nil => simp [scanRows]
  | cons a l =>
    have h1 : ¬ ((hdr :: a :: l).length < 2) := by simp
    rw [if_neg h1]
    cases hs : scanRows (a :: l) with
    | nil => simp [hs]
    | cons b m => simp [hs]

/-- Shape of a successful repair: the output is a matching header followed by
a non-empty list of scanned rows. -/
theorem pure_some_shape {lines out : List Row}
    (h : validate_and_fix_csv_pure lines = some out) :
    ∃ hdr rest, out = hdr :: scanRows rest ∧
      (normalize_header hdr == expected_header) = true ∧ scanRows rest ≠ [] := by
  unfold validate_and_fix_csv_pure at h
  split at h
  · cases h
  next i hf =>
    split at h
    · cases h
    next hdr rest hdrop =>
      obtain ⟨hdr2, rest2, hdrop2, hm2⟩ := findHeaderIdx_drop hf
      rw [hdrop] at hdrop2
      obtain ⟨hh, hr⟩ := List.cons.inj hdrop2.symm
      subst hh
      split at h
      · cases h
      split at h
      · cases h
      next hlen2 =>
        refine ⟨hdr2, rest, (Option.some.injEq _ _ ▸ h).symm, hm2, ?_⟩
        intro hnil
        rw [hnil] at hlen2
        simp at hlen2

/-- A successful repair output is a fixed point of the pure repair. -/
theorem pure_idempotent {lines out : List Row}
    (h : validate_and_fix_csv_pure lines = some out) :
    validate_and_fix_csv_pure out = some out := by
  obtain ⟨hdr, rest, hout, hm, hne⟩ := pure_some_shape h
  subst hout
  have hscan : scanRows (scanRows rest) = scanRows rest :=
    scanRows_all_valid (fun r hr => scanRows_mem hr)
  rw [pure_cons hdr (scanRows rest) hm, hscan, if_neg hne]

/-- The scan over well-behaved rows followed by a non-empty invalid row and
arbitrary junk keeps exactly the non-empty prefix rows. -/
theorem scanRows_append_invalid : ∀ (pre : List Row) (bad : Row) (post : List Row),
    (∀ r ∈ pre, r.isEmpty = true ∨ isValidDataRow r = true) →
    bad.isEmpty = false → isValidDataRow bad = false →
    scanRows (pre ++ bad :: post) = pre.filter (fun r => !r.isEmpty) := by
  intro pre bad post hpre hne hinv
  induction pre with
  | nil => simp [scanRows, hne, hinv]
  | cons a l ih =>
    have hl : ∀ r ∈ l, r.isEmpty = true ∨ isValidDataRow r = true :=
      fun r hr => hpre r (List.mem_cons_of_mem a hr)
    rcases hpre a (List.mem_cons_self a l) with ha | ha
    · rw [List.cons_append, scanRows, if_pos ha, ih hl]
      simp [List.filter, ha]
    · by_cases hae : a.isEmpty = true
      · rw [List.cons_append, scanRows, if_pos hae, ih hl]
        simp [List.filter, hae]
      · rw [List.cons_append, scanRows, if_neg hae, if_pos ha, ih hl]
        simp [List.filter, Bool.eq_false_iff.mpr hae]

/-- Column normalization never changes a row's date. -/
theorem normalizeRow_date (hasAdj : Bool) (r : PriceRow) :
    (normalizeRow hasAdj r).date = r.date := by
  unfold normalizeRow
  split <;> rfl

/-- Table normalization preserves the date sequence. -/
theorem normalizeTable_dates (t : RawTable) :
    (normalizeTable t).map (fun r => r.date) = t.rows.map (fun r => r.date) := by
  unfold normalizeTable
  rw [List.map_map]
  exact List.map_congr_left (fun r _ => normalizeRow_date t.hasAdjClose r)

/-- Unfolding of `update_qld2` on an existing series with a known watermark. -/
theorem update_qld2_existing (today inception : Nat) (proxyTable : RawTable)
    (fetchGap : Nat → Nat → RawTable) (rows : List PriceRow) (w : Nat)
    (hw : (rows.map (fun r => r.date)).max? = some w) :
    update_qld2 today inception proxyTable fetchGap (some rows) =
      (if today ≤ w then .ok (some rows, .upToDate, [])
       else if (fetchGap (w + 1) today).rows.isEmpty then
         .ok (some rows, .noNewRows, [.gap (w + 1) today])
       else
         .ok (some (rows ++ normalizeTable (fetchGap (w + 1) today)),
              .appended (normalizeTable (fetchGap (w + 1) today)).length,
              [.gap (w + 1) today])) := by
  simp only [update_qld2]
  rw [hw]

/-- Claim C2: `validate_and_fix_csv` walks the data rows after the header in
order, treats a row as valid iff its first field matches the date pattern and
it has exactly 7 fields, and stops at the FIRST invalid row. Refuted: the
source skips empty rows (`if not row: continue`) instead of stopping at them.
On a file with a valid header, one valid row, an interior empty row and one
more valid row, the code keeps both valid rows, while the claimed scan stops
at the empty row and keeps only the first. -/
theorem c2_empty_row_counterexample :
    validate_and_fix_csv_pure c2Lines =
      some [expected_header, sampleRow "01/01/2024", sampleRow "02/01/2024"] ∧
    validate_and_fix_claimed c2Lines =
      some [expected_header, sampleRow "01/01/2024"] ∧
    validate_and_fix_csv_pure c2Lines ≠ validate_and_fix_claimed c2Lines := by
  refine ⟨by decide, by decide, by decide⟩

/-- Claim C2 (amended): the scan discards empty rows without stopping, stops
at the first NON-EMPTY invalid row, and rewrites the file to exactly the
header followed by the kept (non-empty, valid) prefix rows. -/
theorem c2_truncation_amended (hdr : Row) (pre : List Row) (bad : Row)
    (post : List Row)
    (hhdr : (normalize_header hdr == expected_header) = true)
    (hpre : ∀ r ∈ pre, r.isEmpty = true ∨ isValidDataRow r = true)
    (hsome : ∃ r ∈ pre, r.isEmpty = false)
    (hbadne : bad.isEmpty = false)
    (hbadinv : isValidDataRow bad = false) :
    validate_and_fix_csv_pure (hdr :: (pre ++ bad :: post)) =
      some (hdr :: pre.filter (fun r => !r.isEmpty)) := by
  rw [pure_cons _ _ hhdr, scanRows_append_invalid pre bad post hpre hbadne hbadinv]
  have hne : pre.filter (fun r => !r.isEmpty) ≠ [] := by
    obtain ⟨r, hr, hre⟩ := hsome
    intro hcontra
    have hmem : r ∈ pre.filter (fun r => !r.isEmpty) :=
      List.mem_filter.mpr ⟨hr, by simp [hre]⟩
    rw [hcontra] at hmem
    simp at hmem
  rw [if_neg hne]

/-- Claim C2 (amended) witness: the spec's truncation example — a valid
header, 5 valid rows, one malformed (non-empty) row, then 3 more valid-looking
rows — is rewritten to exactly the header plus the first 5 rows. -/
theorem c2_truncation_amended_witness :
    ((normalize_header expected_header == expected_header) = true) ∧
    validate_and_fix_csv_pure truncLines =
      some [expected_header,
            sampleRow "08/01/2024", sampleRow "09/01/2024", sampleRow "10/01/2024",
            sampleRow "11/01/2024", sampleRow "12/01/2024"] := by
  refine ⟨by decide, ?_⟩
  have h := c2_truncation_amended expected_header
    [sampleRow "08/01/2024", sampleRow "09/01/2024", sampleRow "10/01/2024",
     sampleRow "11/01/2024", sampleRow "12/01/2024"]
    ["garbage", "x"]
    [sampleRow "15/01/2024", sampleRow "16/01/2024", sampleRow "17/01/2024"]
    (by decide) (by decide)
    ⟨sampleRow "08/01/2024", by decide, by decide⟩
    (by decide) (by decide)
  exact h

/-- Claim C7: `validate_and_fix_csv` returns false and does not modify the
file whenever no header row is found or no valid data row follows the header;
these failure paths return before the output file is ever opened for writing,
so the file is not (even partially) overwritten. -/
theorem c7_failure_no_mutation (lines : List Row)
    (h : findHeaderIdx lines = none ∨
      ∃ i, findHeaderIdx lines = some i ∧ scanRows (lines.drop (i + 1)) = []) :
    validate_and_fix_csv (.content lines) = (false, .content lines) := by
  have hnone : validate_and_fix_csv_pure lines = none := by
    rcases h with hf | ⟨i, hf, hscan⟩
    · unfold validate_and_fix_csv_pure
      rw [hf]
    · obtain ⟨hdr, rest, hdrop, hm⟩ := findHeaderIdx_drop hf
      have hrest : rest = lines.drop (i + 1) := by
        have ht := List.tail_drop lines i
        rw [hdrop] at ht
        simpa using ht
      have hscanr : scanRows rest = [] := by rw [hrest]; exact hscan
      rw [pure_eq_of_find lines i hf, hdrop]
      by_cases hr : rest = []
      · subst hr
        simp
      · obtain ⟨b, m, rfl⟩ := List.exists_cons_of_ne_nil hr
        simp [hscanr]
  simp [validate_and_fix_csv, validate_and_fix_body, hnone]

/-- Claim C7 witness: a file consisting of only the header row fails
(no data row after the header) and is left unmodified. -/
theorem c7_failure_no_mutation_witness :
    (findHeaderIdx [expected_header] = none ∨
      ∃ i, findHeaderIdx [expected_header] = some i ∧
        scanRows ([expected_header].drop (i + 1)) = []) ∧
    validate_and_fix_csv (.content [expected_header]) =
      (false, .content [expected_header]) := by
  have hyp : findHeaderIdx [expected_header] = none ∨
      ∃ i, findHeaderIdx [expected_header] = some i ∧
        scanRows ([expected_header].drop (i + 1)) = [] :=
    Or.inr ⟨0, by decide, by decide⟩
  exact ⟨hyp, c7_failure_no_mutation [expected_header] hyp⟩

/-- Claim C8: `validate_and_fix_csv` is idempotent — after one application,
a second application leaves the file bytes exactly as the first left them;
in particular an already-valid file is rewritten to the same bytes. -/
theorem c8_idempotent (fs : FileState) :
    (validate_and_fix_csv (validate_and_fix_csv fs).2).2 =
      (validate_and_fix_csv fs).2 := by
  cases fs with
  | absent => rfl
  | unreadable => rfl
  | content lines =>
    cases hp : validate_and_fix_csv_pure lines with
    | none =>
      simp [validate_and_fix_csv, validate_and_fix_body, hp]
    | some out =>
      simp [validate_and_fix_csv, validate_and_fix_body, hp, pure_idempotent hp]

/-- Claim C10: the whole body of `validate_and_fix_csv` runs inside
`try/except Exception`, so no internally raised error (missing file,
undecodable bytes, ...) propagates to the caller: the function returns
`False` instead. -/
theorem c10_total_catch (fs : FileState) (e : PyError)
    (h : validate_and_fix_body fs = .error e) :
    validate_and_fix_csv fs = (false, fs) := by
  unfold validate_and_fix_csv
  rw [h]

/-- Claim C10 witness: a missing file raises inside the body and the wrapper
returns `False` with the file system untouched. -/
theorem c10_total_catch_witness :
    validate_and_fix_body .absent = .error .ioError ∧
    validate_and_fix_csv .absent = (false, .absent) :=
  ⟨rfl, c10_total_catch .absent .ioError rfl⟩

/-- Claim C1: on a STALE existing series (watermark `w < today`), `update_qld2`
issues exactly one fetch, for the gap from the day after the watermark through
today; when that fetch is non-empty the merged series is exactly the original
rows, in their original order, followed by the normalized new rows — no
reordering and no deduplication — and when the existing series is strictly
increasing and the fetched rows are strictly increasing dates not before
`w + 1`, the whole merged date sequence is strictly increasing (no overlap). -/
theorem c1_gap_append (today inception : Nat) (proxyTable : RawTable)
    (fetchGap : Nat → Nat → RawTable) (rows : List PriceRow) (w : Nat)
    (hw : (rows.map (fun r => r.date)).max? = some w)
    (hstale : w < today)
    (hne : (fetchGap (w + 1) today).rows ≠ [])
    (hchain : List.Chain' (· < ·) (rows.map (fun r => r.date)))
    (hgapchain : List.Chain' (· < ·)
      ((fetchGap (w + 1) today).rows.map (fun r => r.date)))
    (hgapin : ∀ r ∈ (fetchGap (w + 1) today).rows, w + 1 ≤ r.date) :
    update_qld2 today inception proxyTable fetchGap (some rows) =
      .ok (some (rows ++ normalizeTable (fetchGap (w + 1) today)),
           .appended (normalizeTable (fetchGap (w + 1) today)).length,
           [.gap (w + 1) today]) ∧
    List.Chain' (· < ·)
      ((rows ++ normalizeTable (fetchGap (w + 1) today)).map (fun r => r.date)) := by
  constructor
  · rw [update_qld2_existing today inception proxyTable fetchGap rows w hw,
      if_neg (not_le.mpr hstale), if_neg (by simpa using hne)]
  · rw [List.map_append, normalizeTable_dates, List.chain'_append]
    refine ⟨hchain, hgapchain, ?_⟩
    intro x hx y hy
    have hxmem : x ∈ rows.map (fun r => r.date) :=
      List.mem_of_getLast?_eq_some (Option.mem_def.mp hx)
    have hxle : x ≤ w := (List.max?_eq_some_iff'.mp hw).2 x hxmem
    have hymem : y ∈ (fetchGap (w + 1) today).rows.map (fun r => r.date) :=
      List.mem_of_mem_head? hy
    obtain ⟨r, hr, hry⟩ := List.mem_map.mp hymem
    have hyge : w + 1 ≤ y := hry ▸ hgapin r hr
    omega

/-- Claim C1 witness: watermark 10, today 15, a gap fetch returning rows for
days 11 and 12: the merge appends exactly those rows after the original two. -/
theorem c1_gap_append_witness :
    (([mkRow 9 4, mkRow 10 5].map (fun r => r.date)).max? = some 10 ∧
      (10 : Nat) < 15 ∧
      ((fun _ _ => RawTable.mk true [mkRow 11 6, mkRow 12 7]) (10 + 1) 15
        : RawTable).rows ≠ []) ∧
    update_qld2 15 3 ⟨true, []⟩ (fun _ _ => ⟨true, [mkRow 11 6, mkRow 12 7]⟩)
        (some [mkRow 9 4, mkRow 10 5]) =
      .ok (some [mkRow 9 4, mkRow 10 5, mkRow 11 6, mkRow 12 7],
           .appended 2, [.gap 11 15]) ∧
    List.Chain' (· < ·)
      (([mkRow 9 4, mkRow 10 5] ++
        normalizeTable ⟨true, [mkRow 11 6, mkRow 12 7]⟩).map (fun r => r.date)) := by
  have h := c1_gap_append 15 3 ⟨true, []⟩
    (fun _ _ => ⟨true, [mkRow 11 6, mkRow 12 7]⟩) [mkRow 9 4, mkRow 10 5] 10
    (by decide) (by decide) (by decide)
    (by simp [mkRow, List.chain'_cons]) (by simp [mkRow, List.chain'_cons])
    (by decide)
  exact ⟨⟨by decide, by decide, by decide⟩,
    by simpa [normalizeTable, normalizeRow] using h.1, h.2⟩

/-- Claim C4 (amended): an empty fetch at the gap-append stage and at the
plain-symbol full-history stage leaves the on-disk series unchanged and is a
non-error, no-publish decision; the composite bootstrap stage, however, does
NOT short-circuit on an empty proxy fetch (see the counterexample). -/
theorem c4_empty_fetch_amended (today inception : Nat) (proxyTable : RawTable)
    (fetchGap : Nat → Nat → RawTable) (rows : List PriceRow) (w : Nat)
    (prior : FileState) (g : GetStatus) (putOk : Bool)
    (hw : (rows.map (fun r => r.date)).max? = some w)
    (hstale : w < today)
    (hempty : (fetchGap (w + 1) today).rows = []) :
    update_qld2 today inception proxyTable fetchGap (some rows) =
      .ok (some rows, .noNewRows, [.gap (w + 1) today]) ∧
    processPlainSymbol prior [] g putOk = ⟨prior, 0, .noData⟩ := by
  constructor
  · rw [update_qld2_existing today inception proxyTable fetchGap rows w hw,
      if_neg (not_le.mpr hstale), if_pos (by simp [hempty])]
  · rfl

/-- Claim C4 (amended) witness: an empty gap fetch on a stale series is a
no-op, and an empty plain-symbol fetch writes and publishes nothing. -/
theorem c4_empty_fetch_amended_witness :
    (([mkRow 10 5].map (fun r => r.date)).max? = some 10 ∧ (10 : Nat) < 15 ∧
      ((fun _ _ => RawTable.mk true []) (10 + 1) 15 : RawTable).rows = []) ∧
    update_qld2 15 3 ⟨true, []⟩ (fun _ _ => ⟨true, []⟩) (some [mkRow 10 5]) =
      .ok (some [mkRow 10 5], .noNewRows, [.gap 11 15]) ∧
    processPlainSymbol (.content [expected_header]) [] .notFound true =
      ⟨.content [expected_header], 0, .noData⟩ := by
  have h := c4_empty_fetch_amended 15 3 ⟨true, []⟩ (fun _ _ => ⟨true, []⟩)
    [mkRow 10 5] 10 (.content [expected_header]) .notFound true
    (by decide) (by decide) (by decide)
  exact ⟨⟨by decide, by decide, by decide⟩, by simpa using h.1, h.2⟩

/-- Claim C4 refuted at the bootstrap stage: with no existing file and an
empty proxy fetch, `update_qld2` does not short-circuit — it writes the
(empty) scaled prefix, so the on-disk state changes from "no file" to "file
with header and no rows" even though every fetch returned empty. -/
theorem c4_bootstrap_counterexample :
    update_qld2 5 3 ⟨true, []⟩ (fun _ _ => ⟨true, []⟩) none =
      .ok (some [], .noNewRows, [.proxyHistory, .gap 3 5]) ∧
    some ([] : List PriceRow) ≠ (none : Option (List PriceRow)) := by
  exact ⟨rfl, by simp⟩

/-- Claim C5: when the existing watermark is at or past today, `update_qld2`
issues zero fetch calls, leaves the series unmodified and reports
"already up to date". -/
theorem c5_up_to_date_no_fetch (today inception : Nat) (proxyTable : RawTable)
    (fetchGap : Nat → Nat → RawTable) (rows : List PriceRow) (w : Nat)
    (hw : (rows.map (fun r => r.date)).max? = some w)
    (hcur : today ≤ w) :
    update_qld2 today inception proxyTable fetchGap (some rows) =
      .ok (some rows, .upToDate, []) := by
  rw [update_qld2_existing today inception proxyTable fetchGap rows w hw,
    if_pos hcur]

/-- Claim C5 witness: a series with watermark equal to today is reported
up to date with no fetch. -/
theorem c5_up_to_date_no_fetch_witness :
    (([mkRow 9 4, mkRow 10 5].map (fun r => r.date)).max? = some 10 ∧
      (10 : Nat) ≤ 10) ∧
    update_qld2 10 3 ⟨true, []⟩ (fun _ _ => ⟨true, [mkRow 11 6]⟩)
        (some [mkRow 9 4, mkRow 10 5]) =
      .ok (some [mkRow 9 4, mkRow 10 5], .upToDate, []) :=
  ⟨⟨by decide, by decide⟩,
    c5_up_to_date_no_fetch 10 3 ⟨true, []⟩ (fun _ _ => ⟨true, [mkRow 11 6]⟩)
      [mkRow 9 4, mkRow 10 5] 10 (by decide) (by decide)⟩

/-- Claim C6: the synthetic-prefix scaling of `update_qld2` multiplies each of
Open, High, Low, Close and Adj Close by exactly 2 and leaves Volume (and the
date) unchanged; in particular a proxy row with open 10 and close 12 becomes a
predicted row with open 20 and close 24 and the same volume. -/
theorem c6_bootstrap_scaling :
    (∀ r : PriceRow,
      (scaleRow r).open_ = r.open_ * 2 ∧ (scaleRow r).high = r.high * 2 ∧
      (scaleRow r).low = r.low * 2 ∧ (scaleRow r).close = r.close * 2 ∧
      (scaleRow r).adjClose = r.adjClose * 2 ∧
      (scaleRow r).volume = r.volume ∧ (scaleRow r).date = r.date) ∧
    scaleRow { date := 0, open_ := 10, high := 13, low := 9, close := 12,
               adjClose := 12, volume := 1000 } =
      { date := 0, open_ := 20, high := 26, low := 18, close := 24,
        adjClose := 24, volume := 1000 } := by
  refine ⟨fun r => ⟨rfl, rfl, rfl, rfl, rfl, rfl, rfl⟩, ?_⟩
  simp only [scaleRow, PriceRow.mk.injEq]
  norm_num

/-- Claim C3: in the plain-symbol pipeline the written series always passes
through `validate_and_fix_csv` before the publish `PUT`; when validation fails
the publish is skipped (zero attempts) and the pipeline never attempts more
than one publish (no retry). -/
theorem c3_validate_before_publish (prior : FileState) (dataRows : List Row)
    (g : GetStatus) (putOk : Bool) :
    ((processPlainSymbol prior dataRows g putOk).publishAttempts ≠ 0 →
      (validate_and_fix_csv (.content (expected_header :: dataRows))).1 = true) ∧
    ((validate_and_fix_csv (.content (expected_header :: dataRows))).1 = false →
      (processPlainSymbol prior dataRows g putOk).publishAttempts = 0) ∧
    (processPlainSymbol prior dataRows g putOk).publishAttempts ≤ 1 := by
  simp only [processPlainSymbol]
  split
  · exact ⟨fun h => absurd rfl h, fun _ => rfl, by simp⟩
  · split
    next hv =>
      exact ⟨fun h => absurd rfl h, fun _ => rfl, by simp⟩
    next hv =>
      have hvt : (validate_and_fix_csv (.content (expected_header :: dataRows))).1 = true := by
        cases hb : (validate_and_fix_csv (.content (expected_header :: dataRows))).1 with
        | false => exact absurd hb hv
        | true => rfl
      split <;> exact ⟨fun _ => hvt, fun hf => absurd hf hv, by simp⟩

/-- Claim C3 witness: a symbol whose written file validates publishes once,
and the validation verdict was indeed true. -/
theorem c3_validate_before_publish_witness :
    (processPlainSymbol .absent [sampleRow "01/01/2024"] .notFound true).publishAttempts ≠ 0 ∧
    (validate_and_fix_csv (.content (expected_header :: [sampleRow "01/01/2024"]))).1 = true :=
  ⟨by decide,
    (c3_validate_before_publish .absent [sampleRow "01/01/2024"] .notFound true).1 (by decide)⟩

/-- Claim C9 refuted: the composite symbol `qld2` is handled BEFORE the
`try:` block of the run loop, so an error raised while processing it aborts
the whole run — with symbols `[qld2, AAPL]` and a failing `qld2` step, the
loop stops at `qld2` and `AAPL` is never processed. -/
theorem c9_qld2_abort_counterexample :
    mainLoop c9Step ["qld2", "AAPL"] = (["qld2"], some "qld2") ∧
    "AAPL" ∉ (mainLoop c9Step ["qld2", "AAPL"]).1 := by
  exact ⟨by decide, by decide⟩

/-- Claim C9 (amended): errors of plain symbols are caught at the symbol
boundary and the loop continues through the whole list; only an error in the
composite `qld2` branch (which runs outside the `try`) can abort the run.
Whenever every `qld2`-named symbol's step succeeds, the loop processes every
symbol and never aborts, regardless of plain-symbol failures. -/
theorem c9_loop_amended (step : String → Except PyError Unit) :
    ∀ symbols : List String,
    (∀ s ∈ symbols, (lowerStr s == "qld2") = true → stepOk (step s) = true) →
    mainLoop step symbols = (symbols, none) := by
  intro symbols
  induction symbols with
  | nil => intro _; rfl
  | cons s rest ih =>
    intro h
    by_cases hq : (lowerStr s == "qld2") = true
    · have hs := h s (List.mem_cons_self s rest) hq
      cases hstep : step s with
      | error e => rw [hstep] at hs; simp [stepOk] at hs
      | ok u =>
        simp only [mainLoop, if_pos hq, hstep]
        rw [ih (fun r hr hrq => h r (List.mem_cons_of_mem s hr) hrq)]
    · simp only [mainLoop, if_neg hq]
      rw [ih (fun r hr hrq => h r (List.mem_cons_of_mem s hr) hrq)]

/-- Claim C9 (amended) witness: with a succeeding `qld2` step and a failing
plain symbol `AAPL`, the loop still processes all three symbols and does not
abort. -/
theorem c9_loop_amended_witness :
    (∀ s ∈ ["qld2", "AAPL", "MSFT"], (lowerStr s == "qld2") = true →
      stepOk (c9PlainFailStep s) = true) ∧
    mainLoop c9PlainFailStep ["qld2", "AAPL", "MSFT"] =
      (["qld2", "AAPL", "MSFT"], none) := by
  have hyp : ∀ s ∈ ["qld2", "AAPL", "MSFT"], (lowerStr s == "qld2") = true →
      stepOk (c9PlainFailStep s) = true := by decide
  exact ⟨hyp, c9_loop_amended c9PlainFailStep ["qld2", "AAPL", "MSFT"] hyp⟩

end Finance
